import Mathlib

/-!
# Savestate manager with single-level undo

A shallow embedding of `tasks/task_save_state.c`.

The C file keeps two process-wide backup slots (`old_save_file`,
`old_state_buf`) and talks to three collaborators that live outside it:
the emulated core (`core_serialize_size`, `core_serialize`,
`core_unserialize`, `core_get_memory`), the file layer
(`path_file_exists`, `filestream_read_file`, `filestream_write_file`) and the
host configuration (`settings->block_sram_overwrite`, `global->savefiles`).
The collaborators are parameters of the model (`Env`); the globals, the
core state and the file-system state are threaded explicitly (`World`).

Conventions of the embedding:
* a `void *` / `char *` that may be `NULL` is an `Option`;
* a byte is a natural number, a buffer is a list of bytes;
* the allocations of the SRAM guard (`calloc` of the block array, `malloc` of
  each block buffer), whose failure the source tolerates silently, may fail:
  their outcome is given by the environment (`Env.calloc_ok`, `Env.malloc_ok`);
  the working buffer of a save (line 227), whose failure ends the save before
  the core is asked to serialize, and the two slot copies (lines 261 and 322),
  which the source does not check, are taken to succeed;
* logging (`RARCH_LOG`, `RARCH_ERR`) is dropped;
* `World.trace` is a ghost log of the calls made to the collaborators, in
  call order; it has no influence on the computed results.
-/

namespace SaveState

/-- A buffer of bytes. -/
abbrev Bytes := List Nat

/-- A successful C `malloc(n)`: a fresh buffer of `n` bytes. -/
def malloc (n : Nat) : Option Bytes := some (List.replicate n 0)

/-- The C `memcpy(dst, src, n)`: the contents of `dst` afterwards
(meaningful when both buffers hold at least `n` bytes). -/
def memcpy (dst src : Bytes) (n : Nat) : Bytes := src.take n ++ dst.drop n

/-- The C `struct save_state_buf`. -/
structure save_state_buf where
  data : Option Bytes
  path : String
  size : Nat
deriving DecidableEq, Repr

/-- The C `struct sram_block`. -/
structure sram_block where
  type : Nat
  data : Option Bytes
  size : Nat
deriving DecidableEq, Repr

/-- The output fields of `retro_ctx_memory_info_t` after `core_get_memory`:
`data` is the live region (`none` when the pointer is `NULL`), `size` the
reported length. -/
structure retro_ctx_memory_info_t where
  data : Option Bytes
  size : Nat
deriving DecidableEq, Repr

/-- What `filestream_read_file(path, &buf, &size)` hands back: its return value
and the two out-parameters (`size` is an `ssize_t`). -/
structure file_read_result where
  ret : Bool
  buf : Option Bytes
  size : Int
deriving DecidableEq, Repr

/-- Ghost record of one call to a collaborator. -/
inductive Event where
  | serialize_size
  | serialize (size : Nat)
  | unserialize (data : Option Bytes) (size : Nat)
  | get_memory (id : Nat)
  | sram_backup (id : Nat)
  | sram_flush (id : Nat) (bytes : Bytes)
  | file_exists (path : Option String)
  | read_file (path : Option String)
  | write_file (path : Option String) (data : Option Bytes) (size : Nat)
deriving DecidableEq, Repr

/-- The collaborators of the savestate manager, over a core state `σ` and a
file-system state `φ`.

* `core_serialize c n`: the contents of the `n`-byte buffer after a successful
  `core_serialize`, `none` when the core reports failure; serializing does not
  change the core;
* `core_unserialize c data n`: result and new core state;
* `core_serialize_size`, `core_get_memory`, `path_file_exists` and
  `filestream_read_file` only observe;
* `mem_store c id bytes`: the core after `bytes` have been copied to the start
  of the live region `id` (the `memcpy(ptr, ...)` through the pointer that
  `core_get_memory` returned);
* `block_sram_overwrite`, `savefiles`: the host configuration, `savefiles`
  listing the `attr.i` of each element (`none` when the list pointer is
  `NULL`);
* `calloc_ok n`: whether the guard's `calloc(n, sizeof(*blocks))` succeeds;
  `malloc_ok i n`: whether the guard's `malloc(n)` for block `i` succeeds. -/
structure Env (σ φ : Type) where
  core_serialize_size : σ → Nat
  core_serialize : σ → Nat → Option Bytes
  core_unserialize : σ → Option Bytes → Nat → Bool × σ
  core_get_memory : σ → Nat → retro_ctx_memory_info_t
  mem_store : σ → Nat → Bytes → σ
  path_file_exists : φ → Option String → Bool
  filestream_read_file : φ → Option String → file_read_result
  filestream_write_file : φ → Option String → Option Bytes → Nat → Bool × φ
  block_sram_overwrite : Bool
  savefiles : Option (List Nat)
  calloc_ok : Nat → Bool
  malloc_ok : Nat → Nat → Bool

/-- Everything the operations read or change: the core, the files, the two
static backup slots and the ghost trace. -/
structure World (σ φ : Type) where
  core : σ
  fs : φ
  old_save_file : save_state_buf
  old_state_buf : save_state_buf
  trace : List Event

variable {σ φ : Type}

/-- The state at process start: both static slots are zero-initialised. -/
def World.init (core : σ) (fs : φ) : World σ φ :=
  { core := core, fs := fs,
    old_save_file := { data := none, path := "", size := 0 },
    old_state_buf := { data := none, path := "", size := 0 },
    trace := [] }

/-- Append events to the ghost trace. -/
def World.log (w : World σ φ) (es : List Event) : World σ φ :=
  { w with trace := w.trace ++ es }

/-! ## The SRAM guard (lines 92-138 and 145-164; again 331-378 and 388-407) -/

/-- Lines 92-106: the block array, one zeroed block per savefile entry carrying
its `type`, when overwrite blocking is on and the list is non-empty; when the
`calloc` fails `num_blocks` stays 0 and there are no blocks. -/
def sram_blocks_init (env : Env σ φ) : List sram_block :=
  match env.block_sram_overwrite, env.savefiles with
  | true, some elems =>
    if elems.length ≠ 0 then
      if env.calloc_ok elems.length then
        elems.map (fun i => { type := i, data := none, size := 0 })
      else []
    else []
  | _, _ => []

/-- Lines 108-116: record the size the core reports for each block. -/
def sram_blocks_sizes (env : Env σ φ) (c : σ) (blocks : List sram_block) :
    List sram_block :=
  blocks.map (fun b => { b with size := (env.core_get_memory c b.type).size })

/-- The guard's `malloc(n)` for block `i`: `NULL` when the allocation fails. -/
def guard_malloc (env : Env σ φ) (i n : Nat) : Option Bytes :=
  if env.malloc_ok i n then malloc n else none

/-- Lines 118-120, iteration `i`: allocate a buffer when the size is non-zero;
the result is not checked, a failed allocation leaves `data` `NULL`. -/
def sram_alloc_step (env : Env σ φ) (i : Nat) (b : sram_block) : sram_block :=
  if b.size ≠ 0 then { b with data := guard_malloc env i b.size } else b

/-- Lines 118-120: the allocation loop, from index `i` on. -/
def sram_blocks_alloc (env : Env σ φ) : Nat → List sram_block → List sram_block
  | _, [] => []
  | i, b :: bs => sram_alloc_step env i b :: sram_blocks_alloc env (i + 1) bs

/-- Lines 123-138, one iteration: copy the live region into the block. -/
def sram_backup_step (env : Env σ φ) (c : σ) (b : sram_block) : sram_block :=
  match b.data with
  | some d =>
    match (env.core_get_memory c b.type).data with
    | some ptr => { b with data := some (memcpy d ptr b.size) }
    | none => b
  | none => b

/-- Ghost events of one iteration of the backup loop. -/
def sram_backup_events (env : Env σ φ) (c : σ) (b : sram_block) : List Event :=
  match b.data with
  | some _ =>
    match (env.core_get_memory c b.type).data with
    | some _ => [Event.get_memory b.type, Event.sram_backup b.type]
    | none => [Event.get_memory b.type]
  | none => []

/-- Lines 92-138: the blocks holding the snapshot of the configured regions,
and the calls made to take it. -/
def sram_snapshot (env : Env σ φ) (c : σ) : List sram_block × List Event :=
  let blocks0 := sram_blocks_init env
  let blocks1 := sram_blocks_sizes env c blocks0
  let blocks2 := sram_blocks_alloc env 0 blocks1
  (blocks2.map (sram_backup_step env c),
   blocks0.map (fun b => Event.get_memory b.type)
     ++ blocks2.flatMap (sram_backup_events env c))

/-- Lines 145-160: flush the snapshot back over the live regions. -/
def sram_blocks_flush (env : Env σ φ) : σ → List sram_block → σ × List Event
  | c, [] => (c, [])
  | c, b :: bs =>
    match b.data with
    | none => sram_blocks_flush env c bs
    | some d =>
      match (env.core_get_memory c b.type).data with
      | none =>
        let r := sram_blocks_flush env c bs
        (r.1, Event.get_memory b.type :: r.2)
      | some _ =>
        let r := sram_blocks_flush env (env.mem_store c b.type (d.take b.size)) bs
        (r.1, Event.get_memory b.type :: Event.sram_flush b.type (d.take b.size) :: r.2)

/-! ## The operations -/

/-- `content_undo_load_state()` (lines 65-181). -/
def content_undo_load_state (env : Env σ φ) (w : World σ φ) : Bool × World σ φ :=
  if w.old_state_buf.size = 0 then (true, w)
  else
    let snap := sram_snapshot env w.core
    let r := env.core_unserialize w.core w.old_state_buf.data w.old_state_buf.size
    let f := sram_blocks_flush env r.2 snap.1
    (r.1,
     { w with
       core := f.1
       old_state_buf := { w.old_state_buf with path := "", data := none }
       trace := w.trace ++ snap.2
         ++ [Event.unserialize w.old_state_buf.data w.old_state_buf.size] ++ f.2 })

/-- `content_undo_save_state()` (lines 183-197). -/
def content_undo_save_state (env : Env σ φ) (w : World σ φ) : Bool × World σ φ :=
  let r := env.filestream_write_file w.fs (some w.old_save_file.path)
    w.old_save_file.data w.old_save_file.size
  (r.1,
   { w with
     fs := r.2
     old_save_file := { w.old_save_file with path := "", data := none }
     trace := w.trace ++ [Event.write_file (some w.old_save_file.path)
       w.old_save_file.data w.old_save_file.size] })

/-- Lines 313-329: the body of the `save_to_backup_buffer` branch of
`content_load_state_with_backup`; `strcpy` from a `NULL` path is read as the
empty string. -/
def backup_file (w : World σ φ) (path : Option String) (buf : Option Bytes)
    (size : Int) : World σ φ :=
  { w with
    old_save_file :=
      { path := path.getD ""
        data := (malloc size.toNat).map (fun d => memcpy d (buf.getD []) size.toNat)
        size := size.toNat } }

/-- The call `content_load_state_with_backup(path, true)` made at line 244:
lines 297-329 of that function, which return before any recursion. -/
def load_state_backup_mode (env : Env σ φ) (w : World σ φ) (path : Option String) :
    Bool × World σ φ :=
  let rd := env.filestream_read_file w.fs path
  let w1 := w.log [Event.read_file path]
  if !rd.ret || rd.size < 0 then (false, w1)
  else (true, backup_file w1 path rd.buf rd.size)

/-- `content_save_state_with_backup(path, save_to_disk)` (lines 211-276). -/
def content_save_state_with_backup (env : Env σ φ) (w : World σ φ)
    (path : Option String) (save_to_disk : Bool) : Bool × World σ φ :=
  let size := env.core_serialize_size w.core
  let w1 := w.log [Event.serialize_size]
  if size = 0 then (false, w1)
  else
    match malloc size with
    | none => (false, w1)
    | some _ =>
      let w2 := w1.log [Event.serialize size]
      match env.core_serialize w.core size with
      | some data =>
        if save_to_disk then
          let w3 := w2.log [Event.file_exists path]
          let w4 :=
            if env.path_file_exists w.fs path then
              (load_state_backup_mode env w3 path).2
            else w3
          let r := env.filestream_write_file w4.fs path (some data) size
          (r.1, { w4 with fs := r.2,
                          trace := w4.trace ++ [Event.write_file path (some data) size] })
        else
          (true,
           { w2 with
             old_state_buf :=
               { path := ""
                 data := (malloc size).map (fun d => memcpy d data size)
                 size := size } })
      | none => (false, w2)

/-- `content_load_state_with_backup(path, save_to_backup_buffer)`
(lines 287-422). The call at line 384 is
`content_save_state_with_backup(NULL, true)`, as written in the source. -/
def content_load_state_with_backup (env : Env σ φ) (w : World σ φ)
    (path : Option String) (save_to_backup_buffer : Bool) : Bool × World σ φ :=
  let rd := env.filestream_read_file w.fs path
  let w1 := w.log [Event.read_file path]
  if !rd.ret || rd.size < 0 then (false, w1)
  else if save_to_backup_buffer then (true, backup_file w1 path rd.buf rd.size)
  else
    let snap := sram_snapshot env w1.core
    let w2 := w1.log snap.2
    let w3 := (content_save_state_with_backup env w2 none true).2
    let r := env.core_unserialize w3.core rd.buf rd.size.toNat
    let w4 := { w3 with core := r.2 }.log [Event.unserialize rd.buf rd.size.toNat]
    let f := sram_blocks_flush env w4.core snap.1
    (r.1, { w4 with core := f.1 }.log f.2)

/-- `content_reset_savestate_backups()` (lines 443-464). -/
def content_reset_savestate_backups (w : World σ φ) : Bool × World σ φ :=
  (true,
   { w with
     old_save_file := { data := none, path := "", size := 0 }
     old_state_buf := { data := none, path := "", size := 0 } })

/-- State of the concrete core. -/
structure DemoCore where
  s0 : Nat
  s1 : Nat
  ram : Bytes
deriving DecidableEq, Repr

/-- State of the concrete file system: the most recent binding of a path wins. -/
abbrev DemoFS := List (String × Bytes)

/-- Unserialize of the concrete core: needs a non-`NULL` buffer of at least two
bytes. -/
def demo_unserialize (c : DemoCore) (data : Option Bytes) (_n : Nat) : Bool × DemoCore :=
  match data with
  | some (a :: b :: rest) => (true, { s0 := a, s1 := b, ram := rest })
  | _ => (false, c)

/-- Region descriptor of the concrete core. -/
def demo_get_memory (c : DemoCore) (id : Nat) : retro_ctx_memory_info_t :=
  if id = 0 then { data := some [c.s0, c.s1], size := 2 } else { data := none, size := 0 }

/-- Store through the region pointer of the concrete core. -/
def demo_mem_store (c : DemoCore) (id : Nat) (bytes : Bytes) : DemoCore :=
  if id = 0 then
    match bytes with
    | a :: b :: _ => { c with s0 := a, s1 := b }
    | [a] => { c with s0 := a }
    | [] => c
  else c

/-- Read a whole file of the concrete file system. -/
def demo_read_file (fs : DemoFS) (path : Option String) : file_read_result :=
  match path with
  | some p =>
    match fs.lookup p with
    | some b => { ret := true, buf := some b, size := b.length }
    | none => { ret := false, buf := none, size := -1 }
  | none => { ret := false, buf := none, size := -1 }

/-- Write a whole file of the concrete file system. -/
def demo_write_file (fs : DemoFS) (path : Option String) (data : Option Bytes) (n : Nat) :
    Bool × DemoFS :=
  match path, data with
  | some p, some d => if p = "" then (false, fs) else (true, (p, d.take n) :: fs)
  | _, _ => (false, fs)

/-- The concrete environment, for a given host configuration. -/
def demoEnv (block : Bool) (savefiles : Option (List Nat)) : Env DemoCore DemoFS :=
  { core_serialize_size := fun c => 2 + c.ram.length
    core_serialize := fun c _ => some (c.s0 :: c.s1 :: c.ram)
    core_unserialize := demo_unserialize
    core_get_memory := demo_get_memory
    mem_store := demo_mem_store
    path_file_exists := fun fs path =>
      match path with
      | some p => (fs.lookup p).isSome
      | none => false
    filestream_read_file := demo_read_file
    filestream_write_file := demo_write_file
    block_sram_overwrite := block
    savefiles := savefiles
    calloc_ok := fun _ => true
    malloc_ok := fun _ _ => true }

/-! ## Vocabulary of the statements -/

/-- A call of `filestream_write_file`. -/
def Event.is_write : Event → Bool
  | Event.write_file _ _ _ => true
  | _ => false

/-- A call of `core_unserialize`. -/
def Event.is_unserialize : Event → Bool
  | Event.unserialize _ _ => true
  | _ => false

/-- The file writes recorded in a trace, in order. -/
def writes_of (t : List Event) : List Event := t.filter Event.is_write

/-- The unserialize calls recorded in a trace, in order. -/
def unserializes_of (t : List Event) : List Event := t.filter Event.is_unserialize

/-- The file at `p` is readable and holds exactly the bytes `F`. -/
def file_has (env : Env σ φ) (fs : φ) (p : String) (F : Bytes) : Prop :=
  env.filestream_read_file fs (some p) = { ret := true, buf := some F, size := F.length }

/-- File-layer contract: after a successful write of a whole buffer to `p`, the
file at `p` holds that buffer. -/
def fs_read_after_write (env : Env σ φ) : Prop :=
  ∀ (fs fs1 : φ) (p : String) (d : Bytes),
    env.filestream_write_file fs (some p) (some d) d.length = (true, fs1) →
    file_has env fs1 p d

/-- Core contract: unserializing the serialization of a state installs that
state. -/
def core_installs (env : Env σ φ) : Prop :=
  ∀ (c s : σ) (d : Bytes),
    env.core_serialize s (env.core_serialize_size s) = some d →
    env.core_unserialize c (some d) d.length = (true, s)

/-- Memory contract: copying a region's own bytes over it changes nothing. -/
def mem_store_same (env : Env σ φ) : Prop :=
  ∀ (c : σ) (id : Nat) (cur : Bytes) (n : Nat),
    env.core_get_memory c id = { data := some cur, size := n } →
    env.mem_store c id (cur.take n) = c

/-- Memory contract at region `id`: a store through its pointer that stays
inside the region is a `memcpy` into the live bytes and leaves the reported
size alone. -/
def mem_store_load (env : Env σ φ) (id : Nat) : Prop :=
  ∀ (c : σ) (cur bs : Bytes) (n : Nat),
    env.core_get_memory c id = { data := some cur, size := n } →
    bs.length ≤ n →
    env.core_get_memory (env.mem_store c id bs) id
      = { data := some (memcpy cur bs bs.length), size := n }

/-- Memory contract at region `id`: a store into another region does not
touch it. -/
def mem_store_frame (env : Env σ φ) (id : Nat) : Prop :=
  ∀ (c : σ) (j : Nat) (bs : Bytes), j ≠ id →
    env.core_get_memory (env.mem_store c j bs) id = env.core_get_memory c id

/-- The bytes of region `id`: the first `size` bytes at its pointer. -/
def region_bytes (env : Env σ φ) (c : σ) (id : Nat) : Option Bytes :=
  (env.core_get_memory c id).data.map (List.take (env.core_get_memory c id).size)

/-- The slot invariant of the data model: `size == 0` iff no buffer is owned. -/
def slot_invariant (s : save_state_buf) : Prop := s.size = 0 ↔ s.data = none

instance (s : save_state_buf) : Decidable (slot_invariant s) := by
  unfold slot_invariant; infer_instance

/-- The region ids the guard covers: the savefile list when blocking is on. -/
def guard_ids (env : Env σ φ) : List Nat :=
  (sram_blocks_init env).map (fun b => b.type)

/-- The block the snapshot loops build at index `k` for region `i` of core
`c`. -/
def snapshot_block (env : Env σ φ) (c : σ) (k i : Nat) : sram_block :=
  sram_backup_step env c
    (sram_alloc_step env k
      { type := i, data := none, size := (env.core_get_memory c i).size })

/-- The concrete start state: core `(1, 2, [7])`, one file `p` holding
`[9, 9, 5]`, both slots empty. -/
def demo_world : World DemoCore DemoFS :=
  World.init { s0 := 1, s1 := 2, ram := [7] } [("p", [9, 9, 5])]

/-- The concrete start state with the load-undo slot holding the savestate
`[8, 8, 6]`. -/
def demo_world_undo : World DemoCore DemoFS :=
  { demo_world with old_state_buf := { data := some [8, 8, 6], path := "", size := 3 } }

/-- The state some time after core `(1, 2, [7])` was saved to `p` with the guard
on region 0: the files are as the save left them, the core has moved on to
`(1, 2, [4])` (region 0 unchanged). -/
def demo_world_later : World DemoCore DemoFS :=
  { (content_save_state_with_backup (demoEnv true (some [0])) demo_world
      (some "p") true).2 with core := { s0 := 1, s1 := 2, ram := [4] } }

/-- The state some time after core `(1, 2, [7])` was saved to `p` with the guard
on region 0: the files are as the save left them, the core has moved on to
`(9, 9, [5])` (region 0 changed). -/
def demo_world_moved : World DemoCore DemoFS :=
  { (content_save_state_with_backup (demoEnv true (some [0])) demo_world
      (some "p") true).2 with core := { s0 := 9, s1 := 9, ram := [5] } }

/-- The concrete environment with the guard on region 0 and a heap that
refuses the guard's block buffers. -/
def demoEnv_nomem : Env DemoCore DemoFS :=
  { demoEnv true (some [0]) with malloc_ok := fun _ _ => false }

/-- The concrete environment with the guard on region 0 and a heap that
refuses the guard's block array. -/
def demoEnv_nocalloc : Env DemoCore DemoFS :=
  { demoEnv true (some [0]) with calloc_ok := fun _ => false }

/-- The concrete environment with a core that refuses to serialize. -/
def demoEnv_noserialize : Env DemoCore DemoFS :=
  { demoEnv false none with core_serialize := fun _ _ => none }

/-- Rank of a call in the phases of a guarded load: the live-state capture has
rank `cap`, a copy out of a live region (SRAM snapshot read) rank `snap`,
unserialize rank 2, a copy back into a live region (SRAM restore write) rank 3;
other calls have no rank. -/
def phase_of (cap snap : Nat) : Event → Option Nat
  | Event.serialize_size => some cap
  | Event.serialize _ => some cap
  | Event.sram_backup _ => some snap
  | Event.unserialize _ _ => some 2
  | Event.sram_flush _ _ => some 3
  | _ => none

/-- The ranked calls of a trace occur in non-decreasing rank order. -/
def in_phase_order (cap snap : Nat) (t : List Event) : Prop :=
  List.Pairwise (fun a b => a ≤ b) (t.filterMap (phase_of cap snap))

instance (cap snap : Nat) (t : List Event) : Decidable (in_phase_order cap snap t) := by
  unfold in_phase_order; infer_instance

/-! ## Basic facts -/

theorem memcpy_fresh (src : Bytes) (n : Nat) :
    memcpy (List.replicate n 0) src n = src.take n := by
  simp [memcpy]

theorem load_backup_mode_eq (env : Env σ φ) (w : World σ φ) (path : Option String) :
    content_load_state_with_backup env w path true = load_state_backup_mode env w path := by
  unfold content_load_state_with_backup load_state_backup_mode
  by_cases h : (!(env.filestream_read_file w.fs path).ret
      || decide ((env.filestream_read_file w.fs path).size < 0)) = true
  · simp [h]
  · simp [h]

theorem load_state_backup_mode_fs (env : Env σ φ) (w : World σ φ) (path : Option String) :
    (load_state_backup_mode env w path).2.fs = w.fs := by
  unfold load_state_backup_mode backup_file World.log
  dsimp only
  split <;> rfl

theorem load_state_backup_mode_core (env : Env σ φ) (w : World σ φ) (path : Option String) :
    (load_state_backup_mode env w path).2.core = w.core := by
  unfold load_state_backup_mode backup_file World.log
  dsimp only
  split <;> rfl

theorem load_state_backup_mode_trace (env : Env σ φ) (w : World σ φ) (path : Option String) :
    (load_state_backup_mode env w path).2.trace = w.trace ++ [Event.read_file path] := by
  unfold load_state_backup_mode backup_file World.log
  dsimp only
  split <;> rfl

/-! ## Reset -/

/-- C8: from every state `content_reset_savestate_backups` returns true and
leaves both slots with size zero, no buffer and an empty path, while the core
state and the files (and the record of calls) stay as they were. -/
theorem reset_wipes_both_slots (w : World σ φ) :
    (content_reset_savestate_backups w).1 = true ∧
    (content_reset_savestate_backups w).2.old_save_file
      = { data := none, path := "", size := 0 } ∧
    (content_reset_savestate_backups w).2.old_state_buf
      = { data := none, path := "", size := 0 } ∧
    (content_reset_savestate_backups w).2.core = w.core ∧
    (content_reset_savestate_backups w).2.fs = w.fs ∧
    (content_reset_savestate_backups w).2.trace = w.trace :=
  ⟨rfl, rfl, rfl, rfl, rfl, rfl⟩

/-! ## Saving to disk -/

/-- C9: when no file exists at the path before the call,
`content_save_state_with_backup(path, true)` leaves `old_save_file` (path,
bytes and size) exactly as it was, whatever the slot held and whether the save
succeeds or fails. -/
theorem new_path_save_keeps_file_backup (env : Env σ φ) (w : World σ φ)
    (path : Option String) (h_new : env.path_file_exists w.fs path = false) :
    (content_save_state_with_backup env w path true).2.old_save_file
      = w.old_save_file := by
  unfold content_save_state_with_backup
  by_cases hs : env.core_serialize_size w.core = 0
  · simp [hs, World.log]
  · cases hser : env.core_serialize w.core (env.core_serialize_size w.core) <;>
      simp [hs, hser, h_new, malloc, World.log]

theorem save_to_disk_result (env : Env σ φ) (w : World σ φ) (path : Option String)
    (data : Bytes) (h_size : env.core_serialize_size w.core ≠ 0)
    (h_ser : env.core_serialize w.core (env.core_serialize_size w.core) = some data) :
    (content_save_state_with_backup env w path true).1
      = (env.filestream_write_file w.fs path (some data)
          (env.core_serialize_size w.core)).1 ∧
    (content_save_state_with_backup env w path true).2.fs
      = (env.filestream_write_file w.fs path (some data)
          (env.core_serialize_size w.core)).2 ∧
    (content_save_state_with_backup env w path true).2.core = w.core ∧
    (content_save_state_with_backup env w path true).2.old_state_buf
      = w.old_state_buf := by
  unfold content_save_state_with_backup
  by_cases hex : env.path_file_exists w.fs path = true
  · simp [h_size, h_ser, hex, malloc, World.log, load_state_backup_mode_fs,
      load_state_backup_mode_core]
    unfold load_state_backup_mode backup_file World.log
    dsimp only
    split <;> rfl
  · simp [h_size, h_ser, hex, malloc, World.log]

theorem save_to_disk_trace (env : Env σ φ) (w : World σ φ) (path : Option String)
    (data : Bytes) (h_size : env.core_serialize_size w.core ≠ 0)
    (h_ser : env.core_serialize w.core (env.core_serialize_size w.core) = some data) :
    (content_save_state_with_backup env w path true).2.trace
      = w.trace
        ++ [Event.serialize_size, Event.serialize (env.core_serialize_size w.core),
            Event.file_exists path]
        ++ (if env.path_file_exists w.fs path = true then [Event.read_file path] else [])
        ++ [Event.write_file path (some data) (env.core_serialize_size w.core)] := by
  unfold content_save_state_with_backup
  by_cases hex : env.path_file_exists w.fs path = true
  · simp [h_size, h_ser, hex, malloc, World.log, load_state_backup_mode_trace]
  · simp [h_size, h_ser, hex, malloc, World.log]

theorem save_to_disk_backup (env : Env σ φ) (w : World σ φ) (path : Option String)
    (data : Bytes) (h_size : env.core_serialize_size w.core ≠ 0)
    (h_ser : env.core_serialize w.core (env.core_serialize_size w.core) = some data)
    (h_ex : env.path_file_exists w.fs path = true) :
    (content_save_state_with_backup env w path true).2.old_save_file
      = (load_state_backup_mode env w path).2.old_save_file := by
  unfold content_save_state_with_backup
  simp [h_size, h_ser, h_ex, malloc, World.log]
  unfold load_state_backup_mode backup_file World.log
  dsimp only
  split <;> rfl

theorem writes_of_append (t u : List Event) :
    writes_of (t ++ u) = writes_of t ++ writes_of u := by
  simp [writes_of]

theorem save_to_disk_file (env : Env σ φ) (w : World σ φ) (p : String)
    (data : Bytes) (h_size : env.core_serialize_size w.core ≠ 0)
    (h_ser : env.core_serialize w.core (env.core_serialize_size w.core) = some data)
    (h_len : data.length = env.core_serialize_size w.core)
    (h_fs : fs_read_after_write env) :
    (content_save_state_with_backup env w (some p) true).1 = true →
      file_has env (content_save_state_with_backup env w (some p) true).2.fs p data := by
  obtain ⟨h1, h2, -, -⟩ := save_to_disk_result env w (some p) data h_size h_ser
  intro hok
  rw [h1] at hok
  rw [h2]
  apply h_fs w.fs _ p data
  rw [h_len]
  exact Prod.ext hok rfl

/-- C10: for a core whose `serialize_size` is `n > 0` and whose `serialize`
succeeds with the `n` bytes `data`, `content_save_state_with_backup(p, true)`
issues exactly one file write, of exactly `data` (`n` bytes) to `p`; it
returns the result of that write; and when it returns true the file at `p`
holds exactly `data`, whether or not a file existed at `p` before. -/
theorem save_writes_serialized_state (env : Env σ φ) (w : World σ φ) (p : String)
    (data : Bytes) (h_size : env.core_serialize_size w.core ≠ 0)
    (h_ser : env.core_serialize w.core (env.core_serialize_size w.core) = some data)
    (h_len : data.length = env.core_serialize_size w.core)
    (h_fs : fs_read_after_write env) :
    writes_of (content_save_state_with_backup env w (some p) true).2.trace
      = writes_of w.trace
        ++ [Event.write_file (some p) (some data) (env.core_serialize_size w.core)] ∧
    (content_save_state_with_backup env w (some p) true).1
      = (env.filestream_write_file w.fs (some p) (some data)
          (env.core_serialize_size w.core)).1 ∧
    ((content_save_state_with_backup env w (some p) true).1 = true →
      file_has env (content_save_state_with_backup env w (some p) true).2.fs p data) := by
  obtain ⟨h1, -, -, -⟩ := save_to_disk_result env w (some p) data h_size h_ser
  refine ⟨?_, h1, save_to_disk_file env w p data h_size h_ser h_len h_fs⟩
  rw [save_to_disk_trace env w (some p) data h_size h_ser]
  by_cases hex : env.path_file_exists w.fs (some p) = true <;>
    simp [hex, writes_of, Event.is_write]

theorem load_state_backup_mode_slot (env : Env σ φ) (w : World σ φ) (p : String)
    (F : Bytes) (h_read : file_has env w.fs p F) :
    (load_state_backup_mode env w (some p)).2.old_save_file
      = { data := some F, path := p, size := F.length } := by
  unfold file_has at h_read
  unfold load_state_backup_mode backup_file World.log
  have hneg : ¬ ((F.length : Int) < 0) := by omega
  simp [h_read, malloc, memcpy, hneg]

/-- C2: when `p` names an existing readable file with contents `F` and the core
serializes successfully (non-zero size), `content_save_state_with_backup(p,
true)` leaves `old_save_file` holding `(p, F)` with size `|F|`. The
`content_undo_save_state()` that follows at once issues exactly the write of
`F` (`|F|` bytes) to `p`: its return value and the files it leaves are those of
that `filestream_write_file` call, and it clears the slot's path and buffer.
When that write succeeds, the file at `p` holds exactly `F`. -/
theorem save_then_undo_save_restores (env : Env σ φ) (w : World σ φ) (p : String)
    (F data : Bytes)
    (h_exists : env.path_file_exists w.fs (some p) = true)
    (h_read : file_has env w.fs p F)
    (h_size : env.core_serialize_size w.core ≠ 0)
    (h_ser : env.core_serialize w.core (env.core_serialize_size w.core) = some data)
    (h_fs : fs_read_after_write env) :
    (content_save_state_with_backup env w (some p) true).2.old_save_file
      = { data := some F, path := p, size := F.length } ∧
    content_undo_save_state env (content_save_state_with_backup env w (some p) true).2
      = ((env.filestream_write_file
            (content_save_state_with_backup env w (some p) true).2.fs
            (some p) (some F) F.length).1,
         { (content_save_state_with_backup env w (some p) true).2 with
           fs := (env.filestream_write_file
              (content_save_state_with_backup env w (some p) true).2.fs
              (some p) (some F) F.length).2
           old_save_file := { data := none, path := "", size := F.length }
           trace := (content_save_state_with_backup env w (some p) true).2.trace
              ++ [Event.write_file (some p) (some F) F.length] }) ∧
    ((env.filestream_write_file
          (content_save_state_with_backup env w (some p) true).2.fs
          (some p) (some F) F.length).1 = true →
      file_has env
        (content_undo_save_state env
          (content_save_state_with_backup env w (some p) true).2).2.fs p F) := by
  have hslot : (content_save_state_with_backup env w (some p) true).2.old_save_file
      = { data := some F, path := p, size := F.length } := by
    rw [save_to_disk_backup env w (some p) data h_size h_ser h_exists]
    exact load_state_backup_mode_slot env w p F h_read
  refine ⟨hslot, ?_, ?_⟩
  · unfold content_undo_save_state
    simp only [hslot]
  · intro hok
    unfold content_undo_save_state
    simp only [hslot]
    exact h_fs _ _ p F (Prod.ext hok rfl)

/-! ## Facts about saving in either mode -/

theorem save_core (env : Env σ φ) (w : World σ φ) (path : Option String) (b : Bool) :
    (content_save_state_with_backup env w path b).2.core = w.core := by
  unfold content_save_state_with_backup
  by_cases hs : env.core_serialize_size w.core = 0
  · simp [hs, World.log]
  · cases hser : env.core_serialize w.core (env.core_serialize_size w.core) with
    | none => simp [hs, hser, malloc, World.log]
    | some data =>
      cases b with
      | false => simp [hs, hser, malloc, World.log]
      | true =>
        by_cases hex : env.path_file_exists w.fs path = true
        · simp [hs, hser, hex, malloc, World.log, load_state_backup_mode_core]
        · simp [hs, hser, hex, malloc, World.log]

theorem save_unserializes (env : Env σ φ) (w : World σ φ) (path : Option String)
    (b : Bool) :
    unserializes_of (content_save_state_with_backup env w path b).2.trace
      = unserializes_of w.trace := by
  unfold content_save_state_with_backup
  by_cases hs : env.core_serialize_size w.core = 0
  · simp [hs, World.log, unserializes_of, Event.is_unserialize]
  · cases hser : env.core_serialize w.core (env.core_serialize_size w.core) with
    | none => simp [hs, hser, malloc, World.log, unserializes_of, Event.is_unserialize]
    | some data =>
      cases b with
      | false =>
        simp [hs, hser, malloc, World.log, unserializes_of, Event.is_unserialize]
      | true =>
        by_cases hex : env.path_file_exists w.fs path = true
        · simp [hs, hser, hex, malloc, World.log, load_state_backup_mode_trace,
            unserializes_of, Event.is_unserialize]
        · simp [hs, hser, hex, malloc, World.log, unserializes_of,
            Event.is_unserialize]

/-! ## Facts about the SRAM guard -/

theorem sram_blocks_alloc_mem (env : Env σ φ) (bs : List sram_block) :
    ∀ (k : Nat) (b : sram_block), b ∈ sram_blocks_alloc env k bs →
      ∃ j b0, b0 ∈ bs ∧ b = sram_alloc_step env j b0 := by
  induction bs with
  | nil =>
    intro k b hb
    simp [sram_blocks_alloc] at hb
  | cons h t ih =>
    intro k b hb
    rw [sram_blocks_alloc] at hb
    rcases List.mem_cons.mp hb with rfl | hb
    · exact ⟨k, h, List.mem_cons_self _ _, rfl⟩
    · obtain ⟨j, b0, hb0, hj⟩ := ih (k + 1) b hb
      exact ⟨j, b0, List.mem_cons_of_mem _ hb0, hj⟩

theorem sram_alloc_step_type (env : Env σ φ) (k : Nat) (b : sram_block) :
    (sram_alloc_step env k b).type = b.type := by
  unfold sram_alloc_step
  split <;> rfl

theorem sram_backup_step_type (env : Env σ φ) (c : σ) (b : sram_block) :
    (sram_backup_step env c b).type = b.type := by
  unfold sram_backup_step
  cases b.data with
  | none => rfl
  | some d => cases (env.core_get_memory c b.type).data <;> rfl

theorem sram_blocks_alloc_types (env : Env σ φ) (bs : List sram_block) :
    ∀ k : Nat, (sram_blocks_alloc env k bs).map (fun b => b.type)
      = bs.map (fun b => b.type) := by
  induction bs with
  | nil => intro k; rfl
  | cons h t ih =>
    intro k
    rw [sram_blocks_alloc, List.map_cons, List.map_cons, ih (k + 1),
      sram_alloc_step_type]

theorem sram_snapshot_types (env : Env σ φ) (c : σ) :
    (sram_snapshot env c).1.map (fun b => b.type) = guard_ids env := by
  unfold sram_snapshot guard_ids sram_blocks_sizes
  simp only [List.map_map]
  have h1 : ((fun b : sram_block => b.type) ∘ sram_backup_step env c)
      = (fun b : sram_block => b.type) := by
    funext b
    exact sram_backup_step_type env c b
  rw [h1, sram_blocks_alloc_types, List.map_map]
  rfl

theorem sram_snapshot_mem (env : Env σ φ) (c : σ) (b : sram_block)
    (hb : b ∈ (sram_snapshot env c).1) :
    ∃ k i, i ∈ guard_ids env ∧ b = snapshot_block env c k i := by
  unfold sram_snapshot at hb
  simp only [List.mem_map] at hb
  obtain ⟨b2, hb2, rfl⟩ := hb
  obtain ⟨k, b1, hb1, rfl⟩ := sram_blocks_alloc_mem env _ 0 b2 hb2
  unfold sram_blocks_sizes at hb1
  obtain ⟨b0, hb0, rfl⟩ := List.mem_map.mp hb1
  refine ⟨k, b0.type, ?_, ?_⟩
  · unfold guard_ids
    exact List.mem_map.mpr ⟨b0, hb0, rfl⟩
  · have hinit : b0.data = none := by
      unfold sram_blocks_init at hb0
      cases hbl : env.block_sram_overwrite <;> cases hsf : env.savefiles <;>
        simp [hbl, hsf] at hb0
      obtain ⟨-, -, x, -, rfl⟩ := hb0
      rfl
    unfold snapshot_block
    cases b0 with
    | mk t d n =>
      simp only at hinit
      subst hinit
      rfl

theorem guard_ids_active (env : Env σ φ) (ids : List Nat)
    (h_block : env.block_sram_overwrite = true) (h_files : env.savefiles = some ids)
    (h_calloc : env.calloc_ok ids.length = true) :
    guard_ids env = ids := by
  unfold guard_ids sram_blocks_init
  rw [h_block, h_files]
  cases ids with
  | nil => simp
  | cons i rest =>
    simp only [List.length_cons] at h_calloc
    simp only [List.length_cons, ne_eq, Nat.add_one_ne_zero, not_false_eq_true,
      if_true, h_calloc, List.map_map]
    exact List.map_id _

theorem snapshot_block_type (env : Env σ φ) (c : σ) (k i : Nat) :
    (snapshot_block env c k i).type = i := by
  unfold snapshot_block
  rw [sram_backup_step_type, sram_alloc_step_type]

theorem snapshot_block_size (env : Env σ φ) (c : σ) (k i : Nat) :
    (snapshot_block env c k i).size = (env.core_get_memory c i).size := by
  unfold snapshot_block sram_backup_step sram_alloc_step guard_malloc
  by_cases hz : (env.core_get_memory c i).size = 0
  · simp [hz]
  · cases hd : (env.core_get_memory c i).data <;>
      cases hok : env.malloc_ok k (env.core_get_memory c i).size <;>
      simp [hz, hd, hok, malloc]

theorem snapshot_block_data (env : Env σ φ) (c : σ) (k i : Nat) (cur : Bytes)
    (hd : (env.core_get_memory c i).data = some cur) :
    (snapshot_block env c k i).data
      = if (env.core_get_memory c i).size = 0 then none
        else if env.malloc_ok k (env.core_get_memory c i).size = true then
          some (cur.take (env.core_get_memory c i).size)
        else none := by
  unfold snapshot_block sram_backup_step sram_alloc_step guard_malloc
  by_cases hz : (env.core_get_memory c i).size = 0
  · simp [hz]
  · cases hok : env.malloc_ok k (env.core_get_memory c i).size <;>
      simp [hz, hd, hok, malloc, memcpy]

theorem snapshot_block_absent (env : Env σ φ) (c : σ) (k i : Nat)
    (hd : (env.core_get_memory c i).data = none) :
    (snapshot_block env c k i).data
      = if (env.core_get_memory c i).size = 0 then none
        else if env.malloc_ok k (env.core_get_memory c i).size = true then
          some (List.replicate (env.core_get_memory c i).size 0)
        else none := by
  unfold snapshot_block sram_backup_step sram_alloc_step guard_malloc
  by_cases hz : (env.core_get_memory c i).size = 0
  · simp [hz]
  · cases hok : env.malloc_ok k (env.core_get_memory c i).size <;>
      simp [hz, hd, hok, malloc]

theorem snapshot_block_congr (env : Env σ φ) (c c2 : σ) (k i : Nat)
    (h : env.core_get_memory c2 i = env.core_get_memory c i) :
    snapshot_block env c2 k i = snapshot_block env c k i := by
  unfold snapshot_block sram_backup_step
  rw [h, sram_alloc_step_type, h]

theorem sram_flush_same (env : Env σ φ) (h_mem : mem_store_same env) (c : σ)
    (blocks : List sram_block)
    (h_blocks : ∀ b ∈ blocks, ∃ k i, b = snapshot_block env c k i) :
    (sram_blocks_flush env c blocks).1 = c := by
  induction blocks with
  | nil => rfl
  | cons b rest ih =>
    have ih2 := ih (fun x hx => h_blocks x (List.mem_cons_of_mem _ hx))
    obtain ⟨k, i, rfl⟩ := h_blocks b (List.mem_cons_self _ _)
    rw [sram_blocks_flush]
    have ht := snapshot_block_type env c k i
    have hsz := snapshot_block_size env c k i
    cases hd : (env.core_get_memory c i).data with
    | none =>
      cases hdata : (snapshot_block env c k i).data with
      | none => exact ih2
      | some d =>
        simp only [ht, hd]
        exact ih2
    | some cur =>
      have hdata := snapshot_block_data env c k i cur hd
      by_cases hz : (env.core_get_memory c i).size = 0
      · simp only [hz, if_true] at hdata
        simp only [hdata]
        exact ih2
      · cases hok : env.malloc_ok k (env.core_get_memory c i).size with
        | false =>
          simp only [hz, hok, if_false, Bool.false_eq_true] at hdata
          simp only [hdata]
          exact ih2
        | true =>
          simp only [hz, hok, if_false, if_true] at hdata
          have hinfo : env.core_get_memory c i
              = { data := some cur, size := (env.core_get_memory c i).size } := by
            cases hm : env.core_get_memory c i with
            | mk d n => rw [hm] at hd; simp at hd; simp [hd]
          have hsame := h_mem c i cur _ hinfo
          simp only [hdata, ht, hd, hsz, List.take_take, Nat.min_self, hsame]
          exact ih2

theorem sram_flush_unserializes (env : Env σ φ) (c : σ) (blocks : List sram_block) :
    unserializes_of (sram_blocks_flush env c blocks).2 = [] := by
  induction blocks generalizing c with
  | nil => rfl
  | cons b rest ih =>
    rw [sram_blocks_flush]
    cases hb : b.data with
    | none => simpa using ih c
    | some d =>
      cases hd : (env.core_get_memory c b.type).data with
      | none =>
        simp only [unserializes_of, List.filter_cons, Event.is_unserialize]
        simpa [unserializes_of] using ih c
      | some cur =>
        simp only [unserializes_of, List.filter_cons, Event.is_unserialize]
        simpa [unserializes_of] using ih (env.mem_store c b.type (d.take b.size))

theorem sram_snapshot_unserializes (env : Env σ φ) (c : σ) :
    unserializes_of (sram_snapshot env c).2 = [] := by
  unfold sram_snapshot unserializes_of
  rw [List.filter_eq_nil_iff]
  intro e he
  simp only [List.mem_append, List.mem_map, List.mem_flatMap] at he
  rcases he with ⟨b, -, rfl⟩ | ⟨b, -, hb⟩
  · simp [Event.is_unserialize]
  · unfold sram_backup_events at hb
    cases hdb : b.data with
    | none => simp [hdb] at hb
    | some d =>
      cases hm : (env.core_get_memory c b.type).data with
      | none =>
        simp [hdb, hm] at hb
        subst hb
        simp [Event.is_unserialize]
      | some cur =>
        simp [hdb, hm] at hb
        rcases hb with rfl | rfl <;> simp [Event.is_unserialize]

theorem unserializes_of_append (t u : List Event) :
    unserializes_of (t ++ u) = unserializes_of t ++ unserializes_of u := by
  simp [unserializes_of]

/-! ## Loading -/

theorem load_state_fail (env : Env σ φ) (w : World σ φ) (path : Option String)
    (b : Bool)
    (h_rd : (!(env.filestream_read_file w.fs path).ret
      || decide ((env.filestream_read_file w.fs path).size < 0)) = true) :
    content_load_state_with_backup env w path b
      = (false, w.log [Event.read_file path]) := by
  unfold content_load_state_with_backup
  simp only [h_rd, if_true]

theorem load_state_result (env : Env σ φ) (w : World σ φ) (path : Option String)
    (h_rd : (!(env.filestream_read_file w.fs path).ret
      || decide ((env.filestream_read_file w.fs path).size < 0)) = false) :
    (content_load_state_with_backup env w path false).1
      = (env.core_unserialize w.core (env.filestream_read_file w.fs path).buf
          (env.filestream_read_file w.fs path).size.toNat).1 ∧
    (content_load_state_with_backup env w path false).2.core
      = (sram_blocks_flush env
          (env.core_unserialize w.core (env.filestream_read_file w.fs path).buf
            (env.filestream_read_file w.fs path).size.toNat).2
          (sram_snapshot env w.core).1).1 ∧
    unserializes_of (content_load_state_with_backup env w path false).2.trace
      = unserializes_of w.trace
        ++ [Event.unserialize (env.filestream_read_file w.fs path).buf
              (env.filestream_read_file w.fs path).size.toNat] := by
  unfold content_load_state_with_backup
  simp only [h_rd, Bool.false_eq_true, if_false, World.log, save_core]
  refine ⟨trivial, trivial, ?_⟩
  simp only [unserializes_of_append, save_unserializes, sram_flush_unserializes,
    sram_snapshot_unserializes, List.append_nil]
  simp [unserializes_of, Event.is_unserialize]

theorem sram_flush_same_regions (env : Env σ φ) (h_mem : mem_store_same env)
    (c c2 : σ)
    (h_regions : ∀ id ∈ guard_ids env,
      env.core_get_memory c2 id = env.core_get_memory c id) :
    (sram_blocks_flush env c (sram_snapshot env c2).1).1 = c := by
  apply sram_flush_same env h_mem c
  intro b hb
  obtain ⟨k, i, hi, rfl⟩ := sram_snapshot_mem env c2 b hb
  exact ⟨k, i, snapshot_block_congr env c c2 k i (h_regions i hi)⟩

/-- C3, amended for the SRAM guard: let `content_save_state_with_backup(p,
true)` succeed in a core state `S` whose serialization is `data`, and let
`content_load_state_with_backup(p, false)` follow in any later state `w2`
whose files are as the save left them (core and slots arbitrary). Then the only
unserialize call of the load receives exactly `data` and (for a core whose
unserialize installs the state whose serialization it is given) the load
returns true; and when every region the SRAM guard covers reports at the load
what it reported in `S` (in particular when the guard is off, or when the load
follows the save at once), the core ends in a state whose serialize size and
output equal those of `S`. -/
theorem save_load_round_trip (env : Env σ φ) (w w2 : World σ φ) (p : String)
    (data : Bytes)
    (h_ser : env.core_serialize w.core (env.core_serialize_size w.core) = some data)
    (h_len : data.length = env.core_serialize_size w.core)
    (h_save : (content_save_state_with_backup env w (some p) true).1 = true)
    (h_fs : fs_read_after_write env) (h_core : core_installs env)
    (h_mem : mem_store_same env)
    (h_later : w2.fs = (content_save_state_with_backup env w (some p) true).2.fs) :
    unserializes_of (content_load_state_with_backup env w2 (some p) false).2.trace
      = unserializes_of w2.trace
        ++ [Event.unserialize (some data) (env.core_serialize_size w.core)] ∧
    (content_load_state_with_backup env w2 (some p) false).1 = true ∧
    ((∀ id ∈ guard_ids env,
        env.core_get_memory w2.core id = env.core_get_memory w.core id) →
      env.core_serialize_size
          (content_load_state_with_backup env w2 (some p) false).2.core
        = env.core_serialize_size w.core ∧
      env.core_serialize
          (content_load_state_with_backup env w2 (some p) false).2.core
          (env.core_serialize_size w.core)
        = some data) := by
  have h_size : env.core_serialize_size w.core ≠ 0 := by
    intro h0
    unfold content_save_state_with_backup at h_save
    simp [h0] at h_save
  have hrd := save_to_disk_file env w p data h_size h_ser h_len h_fs h_save
  unfold file_has at hrd
  rw [← h_later] at hrd
  have hok : (!(env.filestream_read_file w2.fs (some p)).ret
      || decide ((env.filestream_read_file w2.fs (some p)).size < 0)) = false := by
    rw [hrd]
    have hneg : ¬ ((data.length : Int) < 0) := by omega
    simp [hneg]
  obtain ⟨hres, hcore, htrace⟩ := load_state_result env w2 (some p) hok
  rw [hrd] at hres hcore htrace
  simp only [Int.toNat_ofNat] at hres hcore htrace
  have hinst := h_core w2.core w.core data h_ser
  rw [hinst] at hres hcore
  rw [h_len] at htrace
  refine ⟨htrace, hres, ?_⟩
  intro h_regions
  simp only at hcore
  rw [sram_flush_same_regions env h_mem w.core w2.core h_regions] at hcore
  rw [hcore]
  exact ⟨rfl, h_ser⟩

/-! ## SRAM preservation -/

theorem sram_flush_region (env : Env σ φ) (id n : Nat) (c0 : σ) (cur0 : Bytes)
    (h_load : mem_store_load env id) (h_frame : mem_store_frame env id)
    (h_alloc : ∀ k, env.malloc_ok k n = true)
    (h0 : env.core_get_memory c0 id = { data := some cur0, size := n })
    (h_wf : n ≤ cur0.length) (blocks : List sram_block) :
    (∀ b ∈ blocks, ∃ k i, b = snapshot_block env c0 k i) →
    ∀ c : σ, (∃ cur, env.core_get_memory c id = { data := some cur, size := n }) →
      ((∃ cur, env.core_get_memory c id = { data := some cur, size := n }
          ∧ cur.take n = cur0.take n) ∨ ∃ b ∈ blocks, b.type = id) →
      ∃ cur, env.core_get_memory (sram_blocks_flush env c blocks).1 id
            = { data := some cur, size := n } ∧ cur.take n = cur0.take n := by
  induction blocks with
  | nil =>
    intro _ c _ hg
    rcases hg with hg | ⟨b, hb, -⟩
    · exact hg
    · cases hb
  | cons b rest ih =>
    intro h_blocks c hp hg
    have ih2 := ih (fun x hx => h_blocks x (List.mem_cons_of_mem _ hx))
    obtain ⟨k, j, rfl⟩ := h_blocks b (List.mem_cons_self _ _)
    rw [sram_blocks_flush]
    have ht := snapshot_block_type env c0 k j
    have hsz := snapshot_block_size env c0 k j
    by_cases hj : j = id
    · subst hj
      have hd0 : (env.core_get_memory c0 j).data = some cur0 := by rw [h0]
      have hn0 : (env.core_get_memory c0 j).size = n := by rw [h0]
      have hdata := snapshot_block_data env c0 k j cur0 hd0
      rw [hn0] at hdata hsz
      obtain ⟨cur, hc⟩ := hp
      by_cases hz : n = 0
      · simp only [hz, if_true] at hdata
        simp only [hdata]
        apply ih2 c ⟨cur, hc⟩
        left
        exact ⟨cur, hc, by simp [hz]⟩
      · simp only [hz, if_false, h_alloc k, if_true] at hdata
        have hcd : (env.core_get_memory c j).data = some cur := by rw [hc]
        simp only [hdata, ht, hcd, hsz]
        have h1 := h_load c cur ((cur0.take n).take n) n hc (by simp)
        apply ih2 _ ⟨_, h1⟩
        left
        refine ⟨_, h1, ?_⟩
        simp only [memcpy, List.take_take, Nat.min_self, List.length_take,
          Nat.min_eq_left h_wf]
        rw [List.take_append_of_le_length (by simp [h_wf])]
        simp
    · have hg2 : (∃ cur, env.core_get_memory c id = { data := some cur, size := n }
          ∧ cur.take n = cur0.take n) ∨ ∃ b ∈ rest, b.type = id := by
        rcases hg with hg | ⟨b, hb, hbt⟩
        · exact Or.inl hg
        · rcases List.mem_cons.mp hb with h | h
          · rw [h, ht] at hbt
            exact absurd hbt hj
          · exact Or.inr ⟨b, h, hbt⟩
      cases hb : (snapshot_block env c0 k j).data with
      | none => exact ih2 c hp hg2
      | some d =>
        rw [ht]
        cases hm : (env.core_get_memory c j).data with
        | none => exact ih2 c hp hg2
        | some ptr =>
          have hfr := h_frame c j (d.take (snapshot_block env c0 k j).size) hj
          apply ih2 (env.mem_store c j (d.take (snapshot_block env c0 k j).size))
          · rw [hfr]; exact hp
          · rw [hfr]; exact hg2

theorem region_bytes_of (env : Env σ φ) (c : σ) (id n : Nat) (cur : Bytes)
    (h : env.core_get_memory c id = { data := some cur, size := n }) :
    region_bytes env c id = some (cur.take n) := by
  unfold region_bytes
  rw [h]
  rfl

theorem sram_guard_region (env : Env σ φ) (c : σ) (ids : List Nat) (id n : Nat)
    (cur0 : Bytes) (d : Option Bytes) (m : Nat)
    (h_block : env.block_sram_overwrite = true)
    (h_files : env.savefiles = some ids) (h_id : id ∈ ids)
    (h_calloc : env.calloc_ok ids.length = true)
    (h_alloc : ∀ k, env.malloc_ok k n = true)
    (h_region : env.core_get_memory c id = { data := some cur0, size := n })
    (h_wf : n ≤ cur0.length)
    (h_stable : ∃ cur, env.core_get_memory (env.core_unserialize c d m).2 id
        = { data := some cur, size := n })
    (h_load : mem_store_load env id) (h_frame : mem_store_frame env id) :
    region_bytes env
        (sram_blocks_flush env (env.core_unserialize c d m).2 (sram_snapshot env c).1).1 id
      = region_bytes env c id := by
  have hex : ∃ b ∈ (sram_snapshot env c).1, b.type = id := by
    have hmem : id ∈ (sram_snapshot env c).1.map (fun b => b.type) := by
      rw [sram_snapshot_types, guard_ids_active env ids h_block h_files h_calloc]
      exact h_id
    obtain ⟨b, hb, hbt⟩ := List.mem_map.mp hmem
    exact ⟨b, hb, hbt⟩
  obtain ⟨cur, hc, htake⟩ := sram_flush_region env id n c cur0 h_load h_frame h_alloc
    h_region h_wf (sram_snapshot env c).1
    (fun b hb => by
      obtain ⟨k, i, -, hki⟩ := sram_snapshot_mem env c b hb
      exact ⟨k, i, hki⟩)
    (env.core_unserialize c d m).2 h_stable (Or.inr hex)
  rw [region_bytes_of env _ id n cur hc, region_bytes_of env c id n cur0 h_region, htake]

/-- C4, amended for allocation failure: with `block_sram_overwrite` set, a
non-empty savefiles list, and the guard's allocations succeeding (the `calloc`
of the block array and the `malloc` of a buffer of the region's size), for
every region id in the list that is present (at least `size` bytes at its
pointer) and that unserialize leaves present with the same size, the bytes of
the region after a non-backup `content_load_state_with_backup` and after a
`content_undo_load_state` are those before the call, whatever unserialize wrote
into the region and whatever it returned. -/
theorem sram_preserved_by_load_and_undo_load (env : Env σ φ) (w : World σ φ)
    (path : Option String) (ids : List Nat) (id n : Nat) (cur0 : Bytes)
    (h_block : env.block_sram_overwrite = true)
    (h_files : env.savefiles = some ids) (h_id : id ∈ ids)
    (h_calloc : env.calloc_ok ids.length = true)
    (h_alloc : ∀ k, env.malloc_ok k n = true)
    (h_region : env.core_get_memory w.core id = { data := some cur0, size := n })
    (h_wf : n ≤ cur0.length)
    (h_stable : ∀ (d : Option Bytes) (m : Nat),
      ∃ cur, env.core_get_memory (env.core_unserialize w.core d m).2 id
        = { data := some cur, size := n })
    (h_load : mem_store_load env id) (h_frame : mem_store_frame env id) :
    region_bytes env (content_load_state_with_backup env w path false).2.core id
      = region_bytes env w.core id ∧
    region_bytes env (content_undo_load_state env w).2.core id
      = region_bytes env w.core id := by
  constructor
  · cases h_rd : (!(env.filestream_read_file w.fs path).ret
        || decide ((env.filestream_read_file w.fs path).size < 0)) with
    | true => rw [load_state_fail env w path false h_rd]; rfl
    | false =>
      rw [(load_state_result env w path h_rd).2.1]
      exact sram_guard_region env w.core ids id n cur0 _ _ h_block h_files h_id h_calloc
        h_alloc h_region h_wf (h_stable _ _) h_load h_frame
  · unfold content_undo_load_state
    by_cases hz : w.old_state_buf.size = 0
    · simp [hz]
    · simp only [hz, if_false]
      exact sram_guard_region env w.core ids id n cur0 _ _ h_block h_files h_id h_calloc
        h_alloc h_region h_wf (h_stable _ _) h_load h_frame

/-! ## The concrete environment meets the contracts -/

theorem demo_fs_read_after_write (block : Bool) (savefiles : Option (List Nat)) :
    fs_read_after_write (demoEnv block savefiles) := by
  intro fs fs1 p d h
  simp only [demoEnv, demo_write_file] at h
  by_cases hp : p = ""
  · simp [hp] at h
  · simp only [hp, if_false, Prod.mk.injEq, true_and] at h
    subst h
    simp [file_has, demoEnv, demo_read_file, List.lookup]

theorem demo_core_installs (block : Bool) (savefiles : Option (List Nat)) :
    core_installs (demoEnv block savefiles) := by
  intro c s d h
  simp only [demoEnv, Option.some.injEq] at h
  subst h
  rfl

theorem demo_mem_store_same (block : Bool) (savefiles : Option (List Nat)) :
    mem_store_same (demoEnv block savefiles) := by
  intro c id cur n h
  simp only [demoEnv, demo_get_memory] at h
  by_cases hid : id = 0
  · simp only [hid, if_true, retro_ctx_memory_info_t.mk.injEq, Option.some.injEq] at h
    obtain ⟨h1, h2⟩ := h
    subst h1 h2
    simp [demoEnv, demo_mem_store, hid]
  · simp [hid] at h

theorem demo_mem_store_load (block : Bool) (savefiles : Option (List Nat)) :
    mem_store_load (demoEnv block savefiles) 0 := by
  intro c cur bs n h hlen
  simp only [demoEnv, demo_get_memory, if_true, retro_ctx_memory_info_t.mk.injEq,
    Option.some.injEq] at h
  obtain ⟨h1, h2⟩ := h
  subst h1 h2
  match bs, hlen with
  | [], _ => simp [demoEnv, demo_get_memory, demo_mem_store, memcpy]
  | [a], _ => simp [demoEnv, demo_get_memory, demo_mem_store, memcpy]
  | [a, b], _ => simp [demoEnv, demo_get_memory, demo_mem_store, memcpy]
  | _ :: _ :: _ :: _, hl => simp at hl

theorem demo_mem_store_frame (block : Bool) (savefiles : Option (List Nat)) :
    mem_store_frame (demoEnv block savefiles) 0 := by
  intro c j bs hj
  simp [demoEnv, demo_mem_store, hj]

/-! ## Concrete runs of the proved properties -/

/-- At a path with no file, a save to disk leaves a filled file backup alone. -/
theorem new_path_save_keeps_file_backup_witness :
    (demoEnv false none).path_file_exists
        (content_save_state_with_backup (demoEnv false none) demo_world (some "p") true).2.fs
        (some "q") = false ∧
    (content_save_state_with_backup (demoEnv false none)
        (content_save_state_with_backup (demoEnv false none) demo_world (some "p") true).2
        (some "q") true).2.old_save_file
      = { data := some [9, 9, 5], path := "p", size := 3 } :=
  ⟨by decide,
   new_path_save_keeps_file_backup (demoEnv false none)
     (content_save_state_with_backup (demoEnv false none) demo_world (some "p") true).2
     (some "q") (by decide)⟩

/-- Saving core `(1, 2, [7])` over the file `p` writes `[1, 2, 7]` once. -/
theorem save_writes_serialized_state_witness :
    writes_of
        (content_save_state_with_backup (demoEnv false none) demo_world (some "p") true).2.trace
      = [] ++ [Event.write_file (some "p") (some [1, 2, 7]) 3] ∧
    (content_save_state_with_backup (demoEnv false none) demo_world (some "p") true).1
      = true ∧
    ((content_save_state_with_backup (demoEnv false none) demo_world (some "p") true).1
        = true →
      file_has (demoEnv false none)
        (content_save_state_with_backup (demoEnv false none) demo_world (some "p") true).2.fs
        "p" [1, 2, 7]) :=
  save_writes_serialized_state (demoEnv false none) demo_world "p" [1, 2, 7]
    (by decide) rfl rfl (demo_fs_read_after_write false none)

/-- Saving over the file `p` that holds `[9, 9, 5]` and undoing the save: the
undo succeeds and `p` holds `[9, 9, 5]` again. -/
theorem save_then_undo_save_restores_witness :
    (content_save_state_with_backup (demoEnv false none) demo_world
        (some "p") true).2.old_save_file
      = { data := some [9, 9, 5], path := "p", size := 3 } ∧
    (content_undo_save_state (demoEnv false none)
        (content_save_state_with_backup (demoEnv false none) demo_world
          (some "p") true).2).1 = true ∧
    (content_save_state_with_backup (demoEnv false none) demo_world (some "p") true).2.fs
      = [("p", [1, 2, 7]), ("p", [9, 9, 5])] ∧
    file_has (demoEnv false none)
      (content_undo_save_state (demoEnv false none)
        (content_save_state_with_backup (demoEnv false none) demo_world
          (some "p") true).2).2.fs "p" [9, 9, 5] :=
  ⟨(save_then_undo_save_restores (demoEnv false none) demo_world "p" [9, 9, 5] [1, 2, 7]
      (by decide) rfl (by decide) rfl (demo_fs_read_after_write false none)).1,
   by decide, by decide,
   (save_then_undo_save_restores (demoEnv false none) demo_world "p" [9, 9, 5] [1, 2, 7]
      (by decide) rfl (by decide) rfl (demo_fs_read_after_write false none)).2.2
      (by decide)⟩

/-- Saving core `(1, 2, [7])` to `p` and loading `p` later, with the guard on
region 0, from a core that has moved on to `(1, 2, [4])`. -/
theorem save_load_round_trip_witness :
    (content_save_state_with_backup (demoEnv true (some [0])) demo_world
        (some "p") true).1 = true ∧
    unserializes_of
        (content_load_state_with_backup (demoEnv true (some [0])) demo_world_later
          (some "p") false).2.trace
      = unserializes_of demo_world_later.trace
        ++ [Event.unserialize (some [1, 2, 7]) 3] ∧
    (content_load_state_with_backup (demoEnv true (some [0])) demo_world_later
        (some "p") false).1 = true ∧
    (demoEnv true (some [0])).core_serialize_size
        (content_load_state_with_backup (demoEnv true (some [0])) demo_world_later
          (some "p") false).2.core
      = 3 ∧
    (demoEnv true (some [0])).core_serialize
        (content_load_state_with_backup (demoEnv true (some [0])) demo_world_later
          (some "p") false).2.core 3
      = some [1, 2, 7] :=
  ⟨by decide,
   (save_load_round_trip (demoEnv true (some [0])) demo_world demo_world_later "p"
      [1, 2, 7] rfl rfl (by decide) (demo_fs_read_after_write true (some [0]))
      (demo_core_installs true (some [0])) (demo_mem_store_same true (some [0])) rfl).1,
   (save_load_round_trip (demoEnv true (some [0])) demo_world demo_world_later "p"
      [1, 2, 7] rfl rfl (by decide) (demo_fs_read_after_write true (some [0]))
      (demo_core_installs true (some [0])) (demo_mem_store_same true (some [0])) rfl).2.1,
   (save_load_round_trip (demoEnv true (some [0])) demo_world demo_world_later "p"
      [1, 2, 7] rfl rfl (by decide) (demo_fs_read_after_write true (some [0]))
      (demo_core_installs true (some [0])) (demo_mem_store_same true (some [0])) rfl).2.2
      (by decide)⟩

/-- C3 as stated fails: core `(1, 2, [7])` is saved to `p` with the guard on
region 0; later, from the core `(9, 9, [5])`, `p` is loaded. Unserialize
receives `[1, 2, 7]` and succeeds, but the guard puts the region's `[9, 9]`
back, so the core serializes to `[9, 9, 7]`, not to `[1, 2, 7]`. -/
theorem round_trip_broken_by_sram_guard :
    core_installs (demoEnv true (some [0])) ∧
    (demoEnv true (some [0])).core_serialize demo_world.core 3 = some [1, 2, 7] ∧
    (content_save_state_with_backup (demoEnv true (some [0])) demo_world
        (some "p") true).1 = true ∧
    demo_world_moved.fs
      = (content_save_state_with_backup (demoEnv true (some [0])) demo_world
          (some "p") true).2.fs ∧
    unserializes_of
        (content_load_state_with_backup (demoEnv true (some [0])) demo_world_moved
          (some "p") false).2.trace = [Event.unserialize (some [1, 2, 7]) 3] ∧
    (content_load_state_with_backup (demoEnv true (some [0])) demo_world_moved
        (some "p") false).1 = true ∧
    (demoEnv true (some [0])).core_serialize
        (content_load_state_with_backup (demoEnv true (some [0])) demo_world_moved
          (some "p") false).2.core 3 = some [9, 9, 7] :=
  ⟨demo_core_installs true (some [0]), rfl, by decide, rfl, by decide, by decide,
   by decide⟩

/-- Loading `[9, 9, 5]`, or undoing to `[8, 8, 6]`, in core `(1, 2, [7])` with
the guard on region 0 and a heap that serves the guard: the region still reads
`[1, 2]` although the installed state carried other bytes for it. -/
theorem sram_preserved_by_load_and_undo_load_witness :
    (demoEnv true (some [0])).core_get_memory demo_world_undo.core 0
      = { data := some [1, 2], size := 2 } ∧
    (content_load_state_with_backup (demoEnv true (some [0])) demo_world_undo
        (some "p") false).2.core = { s0 := 1, s1 := 2, ram := [5] } ∧
    (content_undo_load_state (demoEnv true (some [0])) demo_world_undo).2.core
      = { s0 := 1, s1 := 2, ram := [6] } ∧
    region_bytes (demoEnv true (some [0]))
        (content_load_state_with_backup (demoEnv true (some [0])) demo_world_undo
          (some "p") false).2.core 0
      = region_bytes (demoEnv true (some [0])) demo_world_undo.core 0 ∧
    region_bytes (demoEnv true (some [0]))
        (content_undo_load_state (demoEnv true (some [0])) demo_world_undo).2.core 0
      = region_bytes (demoEnv true (some [0])) demo_world_undo.core 0 :=
  ⟨rfl, by decide, by decide,
   sram_preserved_by_load_and_undo_load (demoEnv true (some [0])) demo_world_undo
     (some "p") [0] 0 2 [1, 2] rfl rfl (by decide) rfl (fun _ => rfl) rfl (by decide)
     (fun _ _ => ⟨_, rfl⟩)
     (demo_mem_store_load true (some [0])) (demo_mem_store_frame true (some [0]))⟩

/-- C4 as stated fails when the guard cannot allocate: with
`block_sram_overwrite` set, savefiles `[0]` and region 0 present (`[1, 2]`), a
failed `malloc` of the block buffer (or a failed `calloc` of the block array)
makes the guard skip the region; the load and the undo-load still return true
and the region reads what unserialize installed, `[9, 9]` and `[8, 8]`. -/
theorem sram_overwritten_when_allocation_fails :
    demoEnv_nomem.block_sram_overwrite = true ∧
    demoEnv_nomem.savefiles = some [0] ∧
    region_bytes demoEnv_nomem demo_world_undo.core 0 = some [1, 2] ∧
    (content_load_state_with_backup demoEnv_nomem demo_world_undo (some "p") false).1
      = true ∧
    region_bytes demoEnv_nomem
        (content_load_state_with_backup demoEnv_nomem demo_world_undo
          (some "p") false).2.core 0 = some [9, 9] ∧
    (content_undo_load_state demoEnv_nomem demo_world_undo).1 = true ∧
    region_bytes demoEnv_nomem
        (content_undo_load_state demoEnv_nomem demo_world_undo).2.core 0
      = some [8, 8] ∧
    region_bytes demoEnv_nocalloc
        (content_load_state_with_backup demoEnv_nocalloc demo_world_undo
          (some "p") false).2.core 0 = some [9, 9] ∧
    region_bytes demoEnv_nocalloc
        (content_undo_load_state demoEnv_nocalloc demo_world_undo).2.core 0
      = some [8, 8] := by
  decide

/-! ## Where the code departs from its specification -/

/-- C1 at a concrete input: core `(1, 2, [7])`, file `p` holding `[9, 9, 5]`,
guard off. The load succeeds and installs `(9, 9, [5])`, but line 384 calls the
saver with `save_to_disk = true`, so `old_state_buf` stays empty; the undo-load
that follows returns true without unserializing and the core still serializes
to `[9, 9, 5]`, not to the `[1, 2, 7]` of the state before the load. -/
theorem load_then_undo_load_keeps_loaded_state :
    (demoEnv false none).core_serialize demo_world.core 3 = some [1, 2, 7] ∧
    (content_load_state_with_backup (demoEnv false none) demo_world (some "p") false).1
      = true ∧
    (content_load_state_with_backup (demoEnv false none) demo_world
        (some "p") false).2.old_state_buf = { data := none, path := "", size := 0 } ∧
    writes_of (content_load_state_with_backup (demoEnv false none) demo_world
        (some "p") false).2.trace = [Event.write_file none (some [1, 2, 7]) 3] ∧
    (content_undo_load_state (demoEnv false none)
        (content_load_state_with_backup (demoEnv false none) demo_world
          (some "p") false).2).1 = true ∧
    (demoEnv false none).core_serialize
        (content_undo_load_state (demoEnv false none)
          (content_load_state_with_backup (demoEnv false none) demo_world
            (some "p") false).2).2.core 3 = some [9, 9, 5] := by
  decide

/-- C5 at a concrete input: `content_save_state_with_backup(NULL, false)` in
core `(1, 2, [7])` fills `old_state_buf` with `[1, 2, 7]` (size 3). The first
undo-load frees the buffer but leaves `size` at 3, so the second call passes
the size test of line 81, calls unserialize with a `NULL` buffer and size 3,
and returns what the core answers (false here). -/
theorem second_undo_load_calls_unserialize :
    (content_save_state_with_backup (demoEnv false none) demo_world none false).2.old_state_buf
      = { data := some [1, 2, 7], path := "", size := 3 } ∧
    (content_undo_load_state (demoEnv false none)
        (content_save_state_with_backup (demoEnv false none) demo_world
          none false).2).1 = true ∧
    (content_undo_load_state (demoEnv false none)
        (content_save_state_with_backup (demoEnv false none) demo_world
          none false).2).2.old_state_buf
      = { data := none, path := "", size := 3 } ∧
    unserializes_of
        (content_undo_load_state (demoEnv false none)
          (content_undo_load_state (demoEnv false none)
            (content_save_state_with_backup (demoEnv false none) demo_world
              none false).2).2).2.trace
      = [Event.unserialize (some [1, 2, 7]) 3, Event.unserialize none 3] ∧
    (content_undo_load_state (demoEnv false none)
        (content_undo_load_state (demoEnv false none)
          (content_save_state_with_backup (demoEnv false none) demo_world
            none false).2).2).1 = false := by
  decide

/-- C6 at a concrete input: after a save over the file `p` (3 bytes), the first
undo-save writes the captured bytes back; the second writes to the empty path
with a `NULL` buffer but with the stale size 3, not size 0. -/
theorem second_undo_save_keeps_stale_size :
    (content_save_state_with_backup (demoEnv false none) demo_world
        (some "p") true).2.old_save_file
      = { data := some [9, 9, 5], path := "p", size := 3 } ∧
    writes_of
        (content_undo_save_state (demoEnv false none)
          (content_undo_save_state (demoEnv false none)
            (content_save_state_with_backup (demoEnv false none) demo_world
              (some "p") true).2).2).2.trace
      = [Event.write_file (some "p") (some [1, 2, 7]) 3,
         Event.write_file (some "p") (some [9, 9, 5]) 3,
         Event.write_file (some "") none 3] := by
  decide

/-- C7 at concrete inputs: the invariant holds at start and for filled slots,
and is broken by each undo, which drops the buffer and keeps the size. -/
theorem undo_breaks_slot_invariant :
    slot_invariant demo_world.old_save_file ∧
    slot_invariant demo_world.old_state_buf ∧
    slot_invariant
      (content_save_state_with_backup (demoEnv false none) demo_world
        (some "p") true).2.old_save_file ∧
    ¬ slot_invariant
      (content_undo_save_state (demoEnv false none)
        (content_save_state_with_backup (demoEnv false none) demo_world
          (some "p") true).2).2.old_save_file ∧
    slot_invariant
      (content_save_state_with_backup (demoEnv false none) demo_world
        none false).2.old_state_buf ∧
    ¬ slot_invariant
      (content_undo_load_state (demoEnv false none)
        (content_save_state_with_backup (demoEnv false none) demo_world
          none false).2).2.old_state_buf := by
  decide

/-! ## Backup-mode load, failing saves, results of load and undo-load -/

/-- C11: when the read of `p` succeeds with bytes `X`,
`content_load_state_with_backup(p, true)` returns true and its only effects are
`old_save_file = (p, X, |X|)`, whatever the slot held, and the one file read in
the record of calls: no serialize or unserialize call, and the core (with its
memory regions), `old_state_buf` and the files are as before. -/
theorem backup_mode_load_snapshots_file (env : Env σ φ) (w : World σ φ) (p : String)
    (X : Bytes) (h_read : file_has env w.fs p X) :
    content_load_state_with_backup env w (some p) true
      = (true,
         { w with
           old_save_file := { data := some X, path := p, size := X.length }
           trace := w.trace ++ [Event.read_file (some p)] }) := by
  unfold file_has at h_read
  unfold content_load_state_with_backup backup_file World.log
  have hneg : ¬ ((X.length : Int) < 0) := by omega
  simp [h_read, malloc, memcpy, hneg]

/-- C12: if `serialize_size` is zero or `serialize` fails,
`content_save_state_with_backup(p, true)` returns false, records no file
write, and leaves the files, the core state and both backup slots as they
were, for every path. -/
theorem save_fails_before_write (env : Env σ φ) (w : World σ φ) (path : Option String)
    (h_fail : env.core_serialize_size w.core = 0
      ∨ env.core_serialize w.core (env.core_serialize_size w.core) = none) :
    (content_save_state_with_backup env w path true).1 = false ∧
    writes_of (content_save_state_with_backup env w path true).2.trace
      = writes_of w.trace ∧
    (content_save_state_with_backup env w path true).2.fs = w.fs ∧
    (content_save_state_with_backup env w path true).2.core = w.core ∧
    (content_save_state_with_backup env w path true).2.old_save_file = w.old_save_file ∧
    (content_save_state_with_backup env w path true).2.old_state_buf
      = w.old_state_buf := by
  unfold content_save_state_with_backup
  by_cases hs : env.core_serialize_size w.core = 0
  · simp [hs, World.log, writes_of, Event.is_write]
  · rcases h_fail with h0 | hser
    · exact absurd h0 hs
    · simp [hs, hser, malloc, World.log, writes_of, Event.is_write]

/-- C14: with `old_state_buf.size == 0`, `content_undo_load_state()` returns
true and changes nothing (no call is recorded, so neither unserialize nor
get_memory is called); otherwise it calls unserialize exactly once, with
`old_state_buf.data` and `old_state_buf.size`, and returns that call's
result. -/
theorem undo_load_result (env : Env σ φ) (w : World σ φ) :
    (w.old_state_buf.size = 0 → content_undo_load_state env w = (true, w)) ∧
    (w.old_state_buf.size ≠ 0 →
      unserializes_of (content_undo_load_state env w).2.trace
        = unserializes_of w.trace
          ++ [Event.unserialize w.old_state_buf.data w.old_state_buf.size] ∧
      (content_undo_load_state env w).1
        = (env.core_unserialize w.core w.old_state_buf.data w.old_state_buf.size).1) := by
  constructor
  · intro hz
    unfold content_undo_load_state
    simp [hz]
  · intro hz
    unfold content_undo_load_state
    simp only [hz, if_false, unserializes_of_append, sram_flush_unserializes,
      sram_snapshot_unserializes, List.append_nil, and_true]
    simp [unserializes_of, Event.is_unserialize]

/-- C17: for a core whose `serialize_size` is `n > 0` and whose `serialize`
succeeds with buffer `data`, `content_save_state_with_backup(path, false)`
returns true and its only effects are `old_state_buf = ("", the n bytes of
data, n)`, whatever the slot held, and the two calls `serialize_size`,
`serialize` in the record of calls: no file existence check, read or write, no
memory-region access, and `old_save_file`, the core and the files are as
before, for every path argument. -/
theorem save_to_buffer_fills_old_state_buf (env : Env σ φ) (w : World σ φ)
    (path : Option String) (data : Bytes)
    (h_size : env.core_serialize_size w.core ≠ 0)
    (h_ser : env.core_serialize w.core (env.core_serialize_size w.core) = some data) :
    content_save_state_with_backup env w path false
      = (true,
         { w with
           old_state_buf :=
             { data := some (data.take (env.core_serialize_size w.core)), path := "",
               size := env.core_serialize_size w.core }
           trace := w.trace
             ++ [Event.serialize_size, Event.serialize (env.core_serialize_size w.core)] }) := by
  unfold content_save_state_with_backup
  simp [h_size, h_ser, malloc, memcpy, World.log]

/-- C19: `content_undo_save_state()` leaves `old_state_buf` and the core (with
its memory regions) as they were, and `content_undo_load_state()` leaves
`old_save_file` and the files as they were, from every state. -/
theorem undo_directions_independent (env : Env σ φ) (w : World σ φ) :
    (content_undo_save_state env w).2.old_state_buf = w.old_state_buf ∧
    (content_undo_save_state env w).2.core = w.core ∧
    (content_undo_load_state env w).2.old_save_file = w.old_save_file ∧
    (content_undo_load_state env w).2.fs = w.fs := by
  refine ⟨rfl, rfl, ?_, ?_⟩
  · unfold content_undo_load_state
    by_cases hz : w.old_state_buf.size = 0 <;> simp [hz]
  · unfold content_undo_load_state
    by_cases hz : w.old_state_buf.size = 0 <;> simp [hz]

theorem load_state_backup_mode_old_state_buf (env : Env σ φ) (w : World σ φ)
    (path : Option String) :
    (load_state_backup_mode env w path).2.old_state_buf = w.old_state_buf := by
  unfold load_state_backup_mode backup_file World.log
  dsimp only
  split <;> rfl

theorem save_to_disk_old_state_buf (env : Env σ φ) (w : World σ φ)
    (path : Option String) :
    (content_save_state_with_backup env w path true).2.old_state_buf
      = w.old_state_buf := by
  unfold content_save_state_with_backup
  by_cases hs : env.core_serialize_size w.core = 0
  · simp [hs, World.log]
  · cases hser : env.core_serialize w.core (env.core_serialize_size w.core) with
    | none => simp [hs, hser, malloc, World.log]
    | some data =>
      by_cases hex : env.path_file_exists w.fs path = true
      · simp [hs, hser, hex, malloc, World.log, load_state_backup_mode_old_state_buf]
      · simp [hs, hser, hex, malloc, World.log]

theorem load_state_old_state_buf (env : Env σ φ) (w : World σ φ)
    (path : Option String) :
    (content_load_state_with_backup env w path false).2.old_state_buf
      = w.old_state_buf := by
  cases h_rd : (!(env.filestream_read_file w.fs path).ret
      || decide ((env.filestream_read_file w.fs path).size < 0)) with
  | true => rw [load_state_fail env w path false h_rd]; rfl
  | false =>
    unfold content_load_state_with_backup
    simp only [h_rd, Bool.false_eq_true, if_false, World.log, save_to_disk_old_state_buf]

/-- C13: `content_load_state_with_backup(p, false)` returns true exactly when
the file read succeeded with a non-negative size and unserialize of the read
buffer (called in the core state of entry) returned true; when the read fails
or reports a negative size the call returns false, no unserialize call is
recorded, and the core (with its memory regions) and both backup slots are as
before. -/
theorem load_result (env : Env σ φ) (w : World σ φ) (path : Option String) :
    ((content_load_state_with_backup env w path false).1 = true ↔
      (env.filestream_read_file w.fs path).ret = true ∧
      0 ≤ (env.filestream_read_file w.fs path).size ∧
      (env.core_unserialize w.core (env.filestream_read_file w.fs path).buf
        (env.filestream_read_file w.fs path).size.toNat).1 = true) ∧
    ((env.filestream_read_file w.fs path).ret = false
        ∨ (env.filestream_read_file w.fs path).size < 0 →
      (content_load_state_with_backup env w path false).1 = false ∧
      unserializes_of (content_load_state_with_backup env w path false).2.trace
        = unserializes_of w.trace ∧
      (content_load_state_with_backup env w path false).2.core = w.core ∧
      (content_load_state_with_backup env w path false).2.old_save_file
        = w.old_save_file ∧
      (content_load_state_with_backup env w path false).2.old_state_buf
        = w.old_state_buf) := by
  cases h_rd : (!(env.filestream_read_file w.fs path).ret
      || decide ((env.filestream_read_file w.fs path).size < 0)) with
  | true =>
    rw [load_state_fail env w path false h_rd]
    have hbad : (env.filestream_read_file w.fs path).ret = false
        ∨ (env.filestream_read_file w.fs path).size < 0 := by
      simpa using h_rd
    constructor
    · constructor
      · intro h; cases h
      · rintro ⟨h1, h2, -⟩
        rcases hbad with hb | hb
        · rw [h1] at hb; cases hb
        · omega
    · intro _
      refine ⟨rfl, ?_, rfl, rfl, rfl⟩
      simp [World.log, unserializes_of, Event.is_unserialize]
  | false =>
    have hgood : (env.filestream_read_file w.fs path).ret = true
        ∧ ¬ (env.filestream_read_file w.fs path).size < 0 := by
      simpa using h_rd
    constructor
    · rw [(load_state_result env w path h_rd).1]
      constructor
      · intro h
        exact ⟨hgood.1, by omega, h⟩
      · rintro ⟨-, -, h⟩
        exact h
    · intro hbad
      rcases hbad with hb | hb
      · rw [hgood.1] at hb; cases hb
      · exact absurd hb hgood.2

/-- C20: `content_load_state_with_backup(p, false)` leaves `old_state_buf`
(path, bytes and size) exactly as it was, for every path, core state and prior
slot content, whether the load succeeds or fails. -/
theorem load_keeps_old_state_buf (env : Env σ φ) (w : World σ φ)
    (path : Option String) :
    (content_load_state_with_backup env w path false).2.old_state_buf
      = w.old_state_buf :=
  load_state_old_state_buf env w path

/-! ## Order of the calls inside a load -/

theorem sram_snapshot_phases (env : Env σ φ) (c : σ) (cap snap : Nat) :
    ∀ x ∈ (sram_snapshot env c).2.filterMap (phase_of cap snap), x = snap := by
  intro x hx
  obtain ⟨e, he, hxe⟩ := List.mem_filterMap.mp hx
  unfold sram_snapshot at he
  simp only [List.mem_append, List.mem_map, List.mem_flatMap] at he
  rcases he with ⟨b, -, rfl⟩ | ⟨b, -, hb⟩
  · simp [phase_of] at hxe
  · unfold sram_backup_events at hb
    cases hdb : b.data with
    | none => simp [hdb] at hb
    | some d =>
      cases hm : (env.core_get_memory c b.type).data with
      | none =>
        simp [hdb, hm] at hb
        subst hb
        simp [phase_of] at hxe
      | some cur =>
        simp [hdb, hm] at hb
        rcases hb with rfl | rfl
        · simp [phase_of] at hxe
        · simp [phase_of] at hxe
          exact hxe.symm

theorem sram_flush_phases (env : Env σ φ) (cap snap : Nat) (blocks : List sram_block) :
    ∀ (c : σ), ∀ x ∈ (sram_blocks_flush env c blocks).2.filterMap (phase_of cap snap),
      x = 3 := by
  induction blocks with
  | nil =>
    intro c x hx
    simp [sram_blocks_flush] at hx
  | cons b rest ih =>
    intro c x hx
    rw [sram_blocks_flush] at hx
    cases hb : b.data with
    | none =>
      simp only [hb] at hx
      exact ih c x hx
    | some d =>
      cases hd : (env.core_get_memory c b.type).data with
      | none =>
        simp only [hb, hd, List.filterMap_cons, phase_of] at hx
        exact ih c x hx
      | some cur =>
        simp only [hb, hd, List.filterMap_cons, phase_of, List.mem_cons] at hx
        rcases hx with rfl | hx
        · rfl
        · exact ih _ x hx

theorem save_to_disk_phases (env : Env σ φ) (w : World σ φ) (path : Option String)
    (cap snap : Nat) :
    ∃ calls, (content_save_state_with_backup env w path true).2.trace = w.trace ++ calls
      ∧ ∀ x ∈ calls.filterMap (phase_of cap snap), x = cap := by
  unfold content_save_state_with_backup
  by_cases hs : env.core_serialize_size w.core = 0
  · refine ⟨[Event.serialize_size], ?_, ?_⟩
    · simp [hs, World.log]
    · simp [phase_of]
  · cases hser : env.core_serialize w.core (env.core_serialize_size w.core) with
    | none =>
      refine ⟨[Event.serialize_size, Event.serialize (env.core_serialize_size w.core)],
        ?_, ?_⟩
      · simp [hs, hser, malloc, World.log]
      · simp [phase_of]
    | some data =>
      by_cases hex : env.path_file_exists w.fs path = true
      · refine ⟨[Event.serialize_size, Event.serialize (env.core_serialize_size w.core),
          Event.file_exists path, Event.read_file path,
          Event.write_file path (some data) (env.core_serialize_size w.core)], ?_, ?_⟩
        · simp [hs, hser, hex, malloc, World.log, load_state_backup_mode_trace]
        · simp [phase_of]
      · refine ⟨[Event.serialize_size, Event.serialize (env.core_serialize_size w.core),
          Event.file_exists path,
          Event.write_file path (some data) (env.core_serialize_size w.core)], ?_, ?_⟩
        · simp [hs, hser, hex, malloc, World.log]
        · simp [phase_of]

theorem pairwise_le_of_const (k : Nat) (l : List Nat) (h : ∀ x ∈ l, x = k) :
    List.Pairwise (fun a b => a ≤ b) l := by
  apply List.pairwise_of_forall_mem_list
  intro a ha b hb
  rw [h a ha, h b hb]

theorem load_trace_calls (env : Env σ φ) (w : World σ φ) (path : Option String)
    (h_rd : (!(env.filestream_read_file w.fs path).ret
      || decide ((env.filestream_read_file w.fs path).size < 0)) = false) :
    ∃ calls, (content_load_state_with_backup env w path false).2.trace = w.trace ++ calls
      ∧ in_phase_order 1 0 calls
      ∧ unserializes_of calls
        = [Event.unserialize (env.filestream_read_file w.fs path).buf
            (env.filestream_read_file w.fs path).size.toNat] := by
  obtain ⟨capl, hcap, hcapph⟩ := save_to_disk_phases env
    (w.log ([Event.read_file path] ++ (sram_snapshot env w.core).2)) none 1 0
  have hcapu : unserializes_of capl = [] := by
    have h1 := save_unserializes env
      (w.log ([Event.read_file path] ++ (sram_snapshot env w.core).2)) none true
    rw [hcap, unserializes_of_append] at h1
    exact List.append_right_eq_self.mp h1
  simp only [World.log] at hcap
  refine ⟨[Event.read_file path] ++ (sram_snapshot env w.core).2 ++ capl
      ++ [Event.unserialize (env.filestream_read_file w.fs path).buf
            (env.filestream_read_file w.fs path).size.toNat]
      ++ (sram_blocks_flush env
            (env.core_unserialize w.core (env.filestream_read_file w.fs path).buf
              (env.filestream_read_file w.fs path).size.toNat).2
            (sram_snapshot env w.core).1).2, ?_, ?_, ?_⟩
  · unfold content_load_state_with_backup
    simp only [h_rd, Bool.false_eq_true, if_false, World.log, save_core,
      List.append_assoc] at hcap ⊢
    rw [hcap]
    simp only [List.append_assoc]
  · unfold in_phase_order
    simp only [List.filterMap_append, List.filterMap_cons, List.filterMap_nil, phase_of,
      List.nil_append]
    have hs := sram_snapshot_phases env w.core 1 0
    have hf := sram_flush_phases env 1 0 (sram_snapshot env w.core).1
      (env.core_unserialize w.core (env.filestream_read_file w.fs path).buf
        (env.filestream_read_file w.fs path).size.toNat).2
    rw [List.pairwise_append, List.pairwise_append, List.pairwise_append]
    refine ⟨⟨⟨pairwise_le_of_const 0 _ hs, pairwise_le_of_const 1 _ hcapph, ?_⟩,
      List.pairwise_singleton _ _, ?_⟩, pairwise_le_of_const 3 _ hf, ?_⟩
    · intro a ha b hb
      rw [hs a ha, hcapph b hb]
      decide
    · intro a ha b hb
      rw [List.mem_singleton.mp hb]
      rcases List.mem_append.mp ha with h | h
      · rw [hs a h]; decide
      · rw [hcapph a h]; decide
    · intro a ha b hb
      rw [hf b hb]
      rcases List.mem_append.mp ha with h | h
      · rcases List.mem_append.mp h with h | h
        · rw [hs a h]; decide
        · rw [hcapph a h]; decide
      · rw [List.mem_singleton.mp h]; decide
  · simp only [unserializes_of_append, sram_snapshot_unserializes, sram_flush_unserializes,
      hcapu, List.append_nil]
    simp [unserializes_of, Event.is_unserialize]

/-- C18, as the code orders the calls: in every execution of
`content_load_state_with_backup(p, false)` that reaches unserialize (the read
succeeded with a non-negative size), the calls the load adds to the record are
ordered SRAM snapshot reads first, then the live-state capture
(`serialize_size`, `serialize`), then the single unserialize, then the SRAM
restore writes. -/
theorem load_call_order (env : Env σ φ) (w : World σ φ) (path : Option String)
    (h_rd : (!(env.filestream_read_file w.fs path).ret
      || decide ((env.filestream_read_file w.fs path).size < 0)) = false) :
    (content_load_state_with_backup env w path false).2.trace.take w.trace.length
      = w.trace ∧
    in_phase_order 1 0
      ((content_load_state_with_backup env w path false).2.trace.drop w.trace.length) ∧
    unserializes_of
        ((content_load_state_with_backup env w path false).2.trace.drop w.trace.length)
      = [Event.unserialize (env.filestream_read_file w.fs path).buf
          (env.filestream_read_file w.fs path).size.toNat] := by
  obtain ⟨calls, htr, hord, hun⟩ := load_trace_calls env w path h_rd
  rw [htr, List.take_left, List.drop_left]
  exact ⟨rfl, hord, hun⟩

/-- The order of the calls in a guarded load of `p` into core `(1, 2, [7])`. -/
theorem load_call_order_witness :
    (content_load_state_with_backup (demoEnv true (some [0])) demo_world
        (some "p") false).2.trace.take demo_world.trace.length = demo_world.trace ∧
    in_phase_order 1 0
      ((content_load_state_with_backup (demoEnv true (some [0])) demo_world
        (some "p") false).2.trace.drop demo_world.trace.length) ∧
    unserializes_of
        ((content_load_state_with_backup (demoEnv true (some [0])) demo_world
          (some "p") false).2.trace.drop demo_world.trace.length)
      = [Event.unserialize (some [9, 9, 5]) 3] :=
  load_call_order (demoEnv true (some [0])) demo_world (some "p") (by decide)

/-- C18 as stated fails: in the guarded load of `p` into core `(1, 2, [7])` the
copy out of region 0 (position 3 of the record) comes before `serialize_size`
and `serialize` (positions 4 and 5), so the calls are not in the order capture,
snapshot, unserialize, restore. -/
theorem load_capture_follows_snapshot :
    (content_load_state_with_backup (demoEnv true (some [0])) demo_world
        (some "p") false).2.trace
      = [Event.read_file (some "p"), Event.get_memory 0, Event.get_memory 0,
         Event.sram_backup 0, Event.serialize_size, Event.serialize 3,
         Event.file_exists none, Event.write_file none (some [1, 2, 7]) 3,
         Event.unserialize (some [9, 9, 5]) 3, Event.get_memory 0,
         Event.sram_flush 0 [1, 2]] ∧
    ¬ in_phase_order 0 1
      (content_load_state_with_backup (demoEnv true (some [0])) demo_world
        (some "p") false).2.trace := by
  decide

/-! ## More concrete runs -/

/-- Snapshotting the file `p` (holding `[9, 9, 5]`) in backup mode. -/
theorem backup_mode_load_snapshots_file_witness :
    file_has (demoEnv false none) demo_world.fs "p" [9, 9, 5] ∧
    content_load_state_with_backup (demoEnv false none) demo_world (some "p") true
      = (true,
         { demo_world with
           old_save_file := { data := some [9, 9, 5], path := "p", size := 3 }
           trace := [] ++ [Event.read_file (some "p")] }) :=
  ⟨rfl, backup_mode_load_snapshots_file (demoEnv false none) demo_world "p" [9, 9, 5] rfl⟩

/-- A save with a core that refuses to serialize. -/
theorem save_fails_before_write_witness :
    demoEnv_noserialize.core_serialize demo_world.core 3 = none ∧
    (content_save_state_with_backup demoEnv_noserialize demo_world (some "p") true).1
      = false ∧
    writes_of (content_save_state_with_backup demoEnv_noserialize demo_world
        (some "p") true).2.trace = writes_of [] ∧
    (content_save_state_with_backup demoEnv_noserialize demo_world (some "p") true).2.fs
      = [("p", [9, 9, 5])] ∧
    (content_save_state_with_backup demoEnv_noserialize demo_world (some "p") true).2.core
      = { s0 := 1, s1 := 2, ram := [7] } ∧
    (content_save_state_with_backup demoEnv_noserialize demo_world
        (some "p") true).2.old_save_file = { data := none, path := "", size := 0 } ∧
    (content_save_state_with_backup demoEnv_noserialize demo_world
        (some "p") true).2.old_state_buf = { data := none, path := "", size := 0 } :=
  ⟨rfl, save_fails_before_write demoEnv_noserialize demo_world (some "p") (Or.inr rfl)⟩

/-- A successful load of `p`, through the characterisation of the result. -/
theorem load_result_witness :
    (content_load_state_with_backup (demoEnv false none) demo_world (some "p") false).1
      = true :=
  (load_result (demoEnv false none) demo_world (some "p")).1.mpr
    ⟨rfl, by decide, rfl⟩

/-- An undo-load from a filled slot: one unserialize call, of `[8, 8, 6]`. -/
theorem undo_load_result_witness :
    unserializes_of (content_undo_load_state (demoEnv false none) demo_world_undo).2.trace
      = unserializes_of demo_world_undo.trace ++ [Event.unserialize (some [8, 8, 6]) 3] ∧
    (content_undo_load_state (demoEnv false none) demo_world_undo).1
      = ((demoEnv false none).core_unserialize demo_world_undo.core (some [8, 8, 6]) 3).1 :=
  (undo_load_result (demoEnv false none) demo_world_undo).2 (by decide)

/-- Saving core `(1, 2, [7])` to the buffer, over a slot holding `[8, 8, 6]`. -/
theorem save_to_buffer_fills_old_state_buf_witness :
    content_save_state_with_backup (demoEnv false none) demo_world_undo none false
      = (true,
         { demo_world_undo with
           old_state_buf := { data := some ([1, 2, 7].take 3), path := "", size := 3 }
           trace := demo_world_undo.trace ++ [Event.serialize_size, Event.serialize 3] }) :=
  save_to_buffer_fills_old_state_buf (demoEnv false none) demo_world_undo none [1, 2, 7]
    (by decide) rfl

/-! ## More departures of the code from its specification -/

/-- C16 at a concrete input: core `(1, 2, [7])` (serialization `[1, 2, 7]`, size
3), `old_state_buf` holding `[8, 8, 6]`, file `p` holding `[9, 9, 5]`. The load
succeeds and installs `[9, 9, 5]`; the serialized pre-load state goes to
`filestream_write_file` with a `NULL` path, and `old_state_buf` still holds
`[8, 8, 6]`. -/
theorem load_leaves_stale_undo_state :
    (demoEnv false none).core_serialize demo_world_undo.core 3 = some [1, 2, 7] ∧
    (content_load_state_with_backup (demoEnv false none) demo_world_undo
        (some "p") false).1 = true ∧
    (content_load_state_with_backup (demoEnv false none) demo_world_undo
        (some "p") false).2.core = { s0 := 9, s1 := 9, ram := [5] } ∧
    (content_load_state_with_backup (demoEnv false none) demo_world_undo
        (some "p") false).2.old_state_buf
      = { data := some [8, 8, 6], path := "", size := 3 } ∧
    writes_of (content_load_state_with_backup (demoEnv false none) demo_world_undo
        (some "p") false).2.trace = [Event.write_file none (some [1, 2, 7]) 3] := by
  decide

end SaveState
